import Mathlib

/-!
Shallow embedding of the template-engine core of the repository
(src/app.ts and src/routes/download.ts) and proofs about the
specified properties: placeholder scanning, spreadsheet substitution,
style preservation, image normalization, PDF conversion success,
download path resolution, and artifact cleanup.

JavaScript runtime behaviour that the code relies on is modelled
explicitly: string coercion performed by String.replace, truthiness
of the logical-or operator, Number() parsing, Date parsing and
rendering (in a UTC environment), and path normalization by path.join.
-/

namespace Templates

/-! ## JavaScript string primitives -/

/-- Whitespace characters recognised by String.prototype.trim
(ASCII fragment; the uncommon Unicode space characters do not occur
in any input considered here). -/
def isJSSpace (c : Char) : Bool :=
  c = ' ' || c = '\t' || c = '\n' || c = '\r' || c = '\x0b' || c = '\x0c'

/-- Characters of a string with leading and trailing JS whitespace removed. -/
def jsTrimChars (cs : List Char) : List Char :=
  ((cs.dropWhile isJSSpace).reverse.dropWhile isJSSpace).reverse

/-- Model of value.trim() as used on line 157 of src/app.ts. -/
def jsTrimString (s : String) : String :=
  String.mk (jsTrimChars s.data)

/-! ## JavaScript numbers

Number(value) on a string yields a double; the fragment exercised by the
repository is exact decimal arithmetic, modelled by a mantissa/scale pair
(value = mant / 10 ^ scale), plus the infinities. -/

/-- An exact decimal number: mant / 10 ^ scale. -/
structure DecNum where
  mant : Int
  scale : Nat
deriving DecidableEq, Repr

/-- A JavaScript number produced by Number() on a numeric string:
finite decimal or a signed infinity (NaN never reaches a use site because
the source guards with !isNaN). -/
inductive JSNum where
  | fin : DecNum → JSNum
  | inf : (negative : Bool) → JSNum
deriving DecidableEq, Repr

/-- Drop trailing decimal zeros so that rendering is canonical. -/
def stripZeros (m : Int) (s : Nat) : Int × Nat :=
  match s with
  | 0 => (m, 0)
  | s + 1 => if m % 10 = 0 && m ≠ 0 then stripZeros (m / 10) s else (m, s + 1)

/-- Left-pad a string with zeros up to width w. -/
def padZeros (w : Nat) (s : String) : String :=
  String.mk (List.replicate (w - s.length) '0') ++ s

/-- Rendering of a finite JS number to a string (String(n)).  Models the
plain-decimal range of Number.prototype.toString; the exponent forms used
for magnitudes ≥ 1e21 or < 1e-6 do not arise in the inputs considered. -/
def decToString (d : DecNum) : String :=
  if d.mant = 0 then "0"
  else
    let (m, s) := stripZeros d.mant d.scale
    if s = 0 then toString m
    else
      let n := m.natAbs
      let intPart := n / 10 ^ s
      let fracPart := n % 10 ^ s
      (if m < 0 then "-" else "") ++ toString intPart ++ "." ++
        padZeros s (toString fracPart)

/-- Rendering of a JS number to a string. -/
def jsNumToString (n : JSNum) : String :=
  match n with
  | .fin d => decToString d
  | .inf true => "-Infinity"
  | .inf false => "Infinity"

/-- Numeric value of a digit list (most significant first). -/
def natFromDigits (ds : List Char) : Nat :=
  ds.foldl (fun acc c => 10 * acc + (c.toNat - 48)) 0

/-- Value of a digit in bases up to 16, if valid. -/
def baseDigitVal (base : Nat) (c : Char) : Option Nat :=
  let code := c.toNat
  let v :=
    if 48 ≤ code && code ≤ 57 then some (code - 48)
    else if 97 ≤ code && code ≤ 102 then some (code - 87)
    else if 65 ≤ code && code ≤ 70 then some (code - 55)
    else none
  match v with
  | some n => if n < base then some n else none
  | none => none

/-- Value of a digit list in a given base, if every digit is valid. -/
def natFromBaseDigits (base : Nat) (ds : List Char) : Option Nat :=
  ds.foldl
    (fun acc c =>
      match acc, baseDigitVal base c with
      | some a, some v => some (a * base + v)
      | _, _ => none)
    (some 0)

/-- The decimal part of Number() parsing: an optionally signed decimal
literal with optional fraction and exponent, or Infinity.  Returns none
for NaN. -/
def jsParseDecimal (t : List Char) : Option JSNum :=
  let (neg, t1) :=
    match t with
    | '-' :: r => (true, r)
    | '+' :: r => (false, r)
    | _ => (false, t)
  if t1 = "Infinity".data then some (.inf neg)
  else
    let (intD, r1) := t1.span Char.isDigit
    let (fracD, r2) :=
      match r1 with
      | '.' :: r => r.span Char.isDigit
      | _ => ([], r1)
    if intD = [] && fracD = [] then none
    else
      let expVal : Option Int :=
        match r2 with
        | [] => some 0
        | e :: r3 =>
          if e = 'e' || e = 'E' then
            let (eneg, r4) :=
              match r3 with
              | '-' :: r => (true, r)
              | '+' :: r => (false, r)
              | _ => (false, r3)
            let (expD, r5) := r4.span Char.isDigit
            if expD ≠ [] && r5 = [] then
              some (if eneg then -(natFromDigits expD : Int) else (natFromDigits expD : Int))
            else none
          else none
      match expVal with
      | none => none
      | some e =>
        let mant0 : Nat := natFromDigits (intD ++ fracD)
        let signed : Int := if neg then -(mant0 : Int) else (mant0 : Int)
        let shift : Int := e - (fracD.length : Int)
        if 0 ≤ shift then some (.fin ⟨signed * 10 ^ shift.toNat, 0⟩)
        else some (.fin ⟨signed, shift.natAbs⟩)

/-- Model of JavaScript Number() applied to a string: none means NaN.
Number of the empty (or all-whitespace) string is 0, which is why the
source additionally guards with value.trim() !== "". -/
def jsNumberParse (s : String) : Option JSNum :=
  let t := jsTrimChars s.data
  if t = [] then some (.fin ⟨0, 0⟩)
  else
    match t with
    | '0' :: x :: ds =>
      if x = 'x' || x = 'X' then
        if ds ≠ [] then (natFromBaseDigits 16 ds).map (fun n => .fin ⟨(n : Int), 0⟩) else none
      else if x = 'o' || x = 'O' then
        if ds ≠ [] then (natFromBaseDigits 8 ds).map (fun n => .fin ⟨(n : Int), 0⟩) else none
      else if x = 'b' || x = 'B' then
        if ds ≠ [] then (natFromBaseDigits 2 ds).map (fun n => .fin ⟨(n : Int), 0⟩) else none
      else jsParseDecimal t
    | _ => jsParseDecimal t

/-- The numeric guard on line 157 of src/app.ts:
!isNaN(Number(value)) && value.trim() !== "". -/
def jsIsNumericNonEmpty (s : String) : Bool :=
  (jsNumberParse s).isSome && jsTrimString s ≠ ""

/-! ## JavaScript dates

new Date(value) followed by string coercion.  The repository constructs
dates only from strings that match /^\d{4}-\d{2}-\d{2}/; the modelled
fragment is the plain YYYY-MM-DD form (parsed as UTC midnight), every
other string in that fragment yielding an invalid date.  Rendering models
Date.prototype.toString in a UTC environment, as in the Docker image the
repository ships. -/

/-- The test value.match(/^\d{4}-\d{2}-\d{2}/) on line 153 of src/app.ts:
the first ten characters are four digits, a dash, two digits, a dash and
two digits. -/
def isoDateTest (s : String) : Bool :=
  match s.data with
  | y1 :: y2 :: y3 :: y4 :: h1 :: m1 :: m2 :: h2 :: d1 :: d2 :: _ =>
    [y1, y2, y3, y4, m1, m2, d1, d2].all Char.isDigit && h1 = '-' && h2 = '-'
  | _ => false

/-- Whether a year is a leap year (Gregorian). -/
def isLeapYear (y : Nat) : Bool :=
  y % 4 = 0 && (y % 100 ≠ 0 || y % 400 = 0)

/-- Days in a month. -/
def daysInMonth (y m : Nat) : Nat :=
  if m = 2 then (if isLeapYear y then 29 else 28)
  else if m = 4 || m = 6 || m = 9 || m = 11 then 30
  else 31

/-- Parse an exact YYYY-MM-DD string to a calendar-valid date. -/
def parseIsoDate (s : String) : Option (Nat × Nat × Nat) :=
  match s.data with
  | [y1, y2, y3, y4, h1, m1, m2, h2, d1, d2] =>
    if [y1, y2, y3, y4, m1, m2, d1, d2].all Char.isDigit && h1 = '-' && h2 = '-' then
      let y := natFromDigits [y1, y2, y3, y4]
      let m := natFromDigits [m1, m2]
      let d := natFromDigits [d1, d2]
      if 1 ≤ m && m ≤ 12 && 1 ≤ d && d ≤ daysInMonth y m then some (y, m, d)
      else none
    else none
  | _ => none

/-- Day of week by the Zeller congruence: 0 = Saturday, 2 = Monday, ... -/
def zellerDayOfWeek (y m d : Nat) : Nat :=
  let zm := if m ≤ 2 then m + 12 else m
  let zy := if m ≤ 2 then y - 1 else y
  let k := zy % 100
  let j := zy / 100
  (d + 13 * (zm + 1) / 5 + k + k / 4 + j / 4 + 5 * j) % 7

/-- Short weekday name as printed by Date.prototype.toString. -/
def weekdayName (h : Nat) : String :=
  match h with
  | 0 => "Sat" | 1 => "Sun" | 2 => "Mon" | 3 => "Tue"
  | 4 => "Wed" | 5 => "Thu" | _ => "Fri"

/-- Short month name as printed by Date.prototype.toString. -/
def monthName (m : Nat) : String :=
  match m with
  | 1 => "Jan" | 2 => "Feb" | 3 => "Mar" | 4 => "Apr"
  | 5 => "May" | 6 => "Jun" | 7 => "Jul" | 8 => "Aug"
  | 9 => "Sep" | 10 => "Oct" | 11 => "Nov" | _ => "Dec"

/-- String(new Date(src)) for the modelled fragment: a calendar-valid
YYYY-MM-DD string renders as UTC midnight of that day; any other string
renders as an invalid date. -/
def jsDateToString (src : String) : String :=
  match parseIsoDate src with
  | some (y, m, d) =>
    weekdayName (zellerDayOfWeek y m d) ++ " " ++ monthName m ++ " " ++
      padZeros 2 (toString d) ++ " " ++ padZeros 4 (toString y) ++
      " 00:00:00 GMT+0000 (Coordinated Universal Time)"
  | none => "Invalid Date"

/-! ## JavaScript values

Values of the JSON body req.body.formData: the scalar fragment.  (Object
and array values never flow into the spreadsheet substitution in the
scenarios specified; they would coerce to their own string forms.) -/

/-- A scalar JSON/JS value held in FormData for the spreadsheet path. -/
inductive JSVal where
  | str : String → JSVal
  | num : DecNum → JSVal
  | boolv : Bool → JSVal
  | nullv : JSVal
deriving DecidableEq, Repr

/-- JS string coercion of a scalar value. -/
def jsValToString (v : JSVal) : String :=
  match v with
  | .str s => s
  | .num d => decToString d
  | .boolv true => "true"
  | .boolv false => "false"
  | .nullv => "null"

/-! ## The placeholder pattern

The global regex /{{([^}]+)}}/g used by both the Scanner (line 56 of
src/app.ts) and the Renderer (line 116).  A left-to-right scan of the
subject string: at each position a match is two braces, a nonempty run
of characters other than a closing brace (greedy, which here is forced:
the run ends exactly at the first closing brace), and two closing
braces; on failure the scan advances one character. -/

/-- A segment of the subject string: a literal character outside any
match, or the captured group (the placeholder name) of one match. -/
inductive Seg where
  | lit : Char → Seg
  | tok : String → Seg
deriving DecidableEq, Repr

/-- One attempted match of the pattern at the current position: two
opening braces, a nonempty greedy run of characters other than a closing
brace (the run necessarily ends at the first closing brace), then two
closing braces.  Returns the captured name and the rest of the subject
after the match. -/
def matchTok (cs : List Char) : Option (String × List Char) :=
  match cs with
  | '{' :: '{' :: rest =>
    let run := rest.takeWhile (fun c => c ≠ '}')
    match rest.dropWhile (fun c => c ≠ '}') with
    | '}' :: '}' :: rest' =>
      if run.isEmpty then none else some (String.mk run, rest')
    | _ => none
  | _ => none

/-- The scan, on fuel: a successful match emits its captured name and
continues after the match, otherwise one literal character is emitted
and the scan advances one position.  Every step consumes at least one
character, so fuel equal to the subject length suffices; the
fuel-exhausted clause is unreachable from tokenize. -/
def tokenizeAux : Nat → List Char → List Seg
  | _, [] => []
  | 0, _ :: _ => []
  | fuel + 1, c :: rest =>
    match matchTok (c :: rest) with
    | some (n, rest') => Seg.tok n :: tokenizeAux fuel rest'
    | none => Seg.lit c :: tokenizeAux fuel rest

/-- Left-to-right scan of /{{([^}]+)}}/g over the characters of the
subject string. -/
def tokenize (cs : List Char) : List Seg :=
  tokenizeAux cs.length cs

/-- The source text a segment stands for. -/
def segChars (s : Seg) : List Char :=
  match s with
  | .lit c => [c]
  | .tok n => '{' :: '{' :: n.data ++ ['}', '}']

/-- Names of the tokens of a scan, in order, duplicates kept: the
matches of the global regex with their delimiters sliced off
(match.slice(2, -2), line 86 of src/app.ts). -/
def tokenNames (s : String) : List String :=
  (tokenize s.data).filterMap fun sg =>
    match sg with
    | .tok n => some n
    | .lit _ => none

/-- Truthiness of cellValue.match(placeholderRegex): at least one match. -/
def hasPlaceholder (s : String) : Bool :=
  (tokenize s.data).any fun sg =>
    match sg with
    | .tok _ => true
    | .lit _ => false

/-! ## Spreadsheet substitution (processExcelTemplate, src/app.ts 108-191) -/

/-- The form-data mapping req.body.formData for the spreadsheet path:
placeholder name to scalar value, first binding wins. -/
def FormData := List (String × JSVal)

/-- What the replacement callback (lines 145-163) returns for one token:
the matched text itself when the name is absent, a Date for ISO-dated
strings, a Number for fully numeric strings, or the value unchanged. -/
inductive SubstOut where
  | keep : String → SubstOut
  | date : String → SubstOut
  | num : JSNum → SubstOut
  | raw : JSVal → SubstOut
deriving DecidableEq, Repr

/-- The replacement callback of lines 145-163 for a token with the given
captured name.  formData[placeholder] is the lookup; undefined returns
the match unchanged. -/
def substCallback (fd : FormData) (name : String) : SubstOut :=
  match fd.lookup name with
  | none => .keep ("\x7b\x7b" ++ name ++ "\x7d\x7d")
  | some v =>
    match v with
    | .str s =>
      if isoDateTest s then .date s
      else if jsIsNumericNonEmpty s then
        .num ((jsNumberParse s).getD (.fin ⟨0, 0⟩))
      else .raw (.str s)
    | other => .raw other

/-- String.replace coerces a non-string callback result to a string. -/
def substOutToString (o : SubstOut) : String :=
  match o with
  | .keep s => s
  | .date s => jsDateToString s
  | .num n => jsNumToString n
  | .raw v => jsValToString v

/-- The text one segment of the scan contributes to the replaced string. -/
def renderSeg (fd : FormData) (sg : Seg) : String :=
  match sg with
  | .lit c => String.mk [c]
  | .tok name => substOutToString (substCallback fd name)

/-- Concatenation of the segment renderings. -/
def concatStrings (l : List String) : String :=
  match l with
  | [] => ""
  | s :: rest => s ++ concatStrings rest

/-- Model of cellValue.replace(placeholderRegex, callback): every match
is replaced by the string coercion of the callback result, the text
between matches is kept. -/
def jsReplaceTokens (fd : FormData) (s : String) : String :=
  concatStrings ((tokenize s.data).map (renderSeg fd))

/-! ## The spreadsheet document model (exceljs objects as the source
reads them) -/

/-- A cell style object.  Representative leaf fields standing for the
plain-data style tree; JSON.parse(JSON.stringify(style)) on such plain
data is modelled as structural copy. -/
structure Style where
  font : String
  fill : String
  border : String
  numFmt : String
  alignment : String
deriving DecidableEq, Repr

/-- The deep copy JSON.parse(JSON.stringify(style)) of line 139: an
explicit field-by-field clone of the plain-data style object. -/
def deepCopyStyle (s : Style) : Style :=
  { font := s.font, fill := s.fill, border := s.border,
    numFmt := s.numFmt, alignment := s.alignment }

/-- A cell value as the source inspects it: a plain string, a number, a
date, a formula object (with the string form of its cached result, if
any), an object carrying a text field (the source treats those as rich
text), or anything else. -/
inductive CellValue where
  | str : String → CellValue
  | num : DecNum → CellValue
  | date : String → CellValue
  | formula : (formulaText : String) → (cachedResult : Option String) → CellValue
  | richText : String → CellValue
  | blank : CellValue
deriving DecidableEq, Repr

/-- Whether a cell value is a plain string (typeof value === "string"). -/
def CellValue.isStr (v : CellValue) : Bool :=
  match v with
  | .str _ => true
  | _ => false

/-- Whether a cell value is a date value. -/
def CellValue.isDate (v : CellValue) : Bool :=
  match v with
  | .date _ => true
  | _ => false

/-- The text the Scanner extracts from a raw cell value (lines 70-79 of
src/app.ts): a string as-is, a formula object through
rawValue.result?.toString() or the empty string, an object with a text
field through rawValue.text or the empty string, anything else nothing. -/
def scanText (v : CellValue) : String :=
  match v with
  | .str s => s
  | .formula _ (some r) => r
  | .formula _ none => ""
  | .richText t => t
  | _ => ""

/-- A cell: value plus style. -/
structure Cell where
  value : CellValue
  style : Style
deriving DecidableEq, Repr

/-- A row: its cells (the ones eachCell visits, aligned by column
number across the two loads of the same file) and the row properties
the source copies. -/
structure Row where
  cells : List Cell
  height : Int
  hidden : Bool
  outlineLevel : Nat
deriving DecidableEq, Repr

/-- A column record with its width (undefined widths are none). -/
structure ColInfo where
  width : Option Int
  rest : String
deriving DecidableEq, Repr

/-- A worksheet: rows, columns and the sheet-level plain-data properties
the source copies (worksheet.properties and worksheet.pageSetup). -/
structure Worksheet where
  rows : List Row
  columns : List ColInfo
  props : String
  pageSetup : String
deriving DecidableEq, Repr

/-- A workbook: worksheets plus workbook-level properties and views. -/
structure Workbook where
  sheets : List Worksheet
  props : String
  views : String
deriving DecidableEq, Repr

/-- The cell of a workbook at sheet i, row j, column k, if present. -/
def Workbook.cellAt (wb : Workbook) (i j k : Nat) : Option Cell :=
  (wb.sheets[i]?).bind fun ws => (ws.rows[j]?).bind fun r => r.cells[k]?

/-! ## The renderer pipeline

processExcelTemplate (src/app.ts 108-191) loads templatePath twice:
templateWorkbook is the pristine reference, workbook the working copy;
both are parses of the same file and hence structurally equal.  The model
keeps the two parameters separate in the worker functions and passes the
parsed workbook twice at the top. -/

/-- Lines 135-171: on a string cell value with at least one match,
replace; then unconditionally overwrite the style with the deep copy of
the template cell style. -/
def processCell (fd : FormData) (cell tcell : Cell) : Cell :=
  let originalStyle := deepCopyStyle tcell.style
  let newValue :=
    match cell.value with
    | .str s =>
      if hasPlaceholder s then CellValue.str (jsReplaceTokens fd s)
      else CellValue.str s
    | v => v
  { value := newValue, style := originalStyle }

/-- Lines 127-172: per-row processing; height, hidden flag and outline
level are restored from the template row, cells are processed pairwise
(eachCell visits the cells by column number, getCell fetches the
matching template cell; the two loads of one file align). -/
def processRow (fd : FormData) (row trow : Row) : Row :=
  { cells := List.zipWith (processCell fd) row.cells trow.cells
    height := trow.height
    hidden := trow.hidden
    outlineLevel := trow.outlineLevel }

/-- The spread {...col, width: col.width} of lines 122-125. -/
def copyColumn (col : ColInfo) : ColInfo :=
  { width := col.width, rest := col.rest }

/-- The second width pass of lines 179-183: widths are set again from
template columns that have a truthy width. -/
def restoreWidth (c tc : ColInfo) : ColInfo :=
  match tc.width with
  | some w => if w ≠ 0 then { c with width := some w } else c
  | none => c

/-- Lines 118-184: per-sheet processing. -/
def processSheet (fd : FormData) (ws tws : Worksheet) : Worksheet :=
  { rows := List.zipWith (processRow fd) ws.rows tws.rows
    columns := List.zipWith restoreWidth (tws.columns.map copyColumn) tws.columns
    props := tws.props
    pageSetup := tws.pageSetup }

/-- Lines 118-188: all sheets, then workbook properties and views from
the template workbook. -/
def processWorkbook (fd : FormData) (wb twb : Workbook) : Workbook :=
  { sheets := List.zipWith (processSheet fd) wb.sheets twb.sheets
    props := twb.props
    views := twb.views }

/-- The whole renderer: both in-memory copies come from the same parsed
file (lines 110-115), so the working copy and the reference coincide.
Writing the result file is the final xlsx.writeFile; the model returns
the workbook that is written. -/
def processExcelTemplate (fd : FormData) (wb : Workbook) : Workbook :=
  processWorkbook fd wb wb

/-- Whether any cell of the workbook offers a placeholder token to the
scan (over the same extracted text the Scanner reads). -/
def Workbook.hasToken (wb : Workbook) : Bool :=
  wb.sheets.any fun ws =>
    ws.rows.any fun r =>
      r.cells.any fun c => hasPlaceholder (scanText c.value)

/-! ## The Placeholder Scanner (findExcelPlaceholders, src/app.ts 52-99) -/

/-- Token names contributed by one row, in column order. -/
def rowOccurrences (r : Row) : List String :=
  (r.cells.map fun c =>
    let t := scanText c.value
    if t ≠ "" then tokenNames t else []).flatten

/-- Token names contributed by one worksheet, row-major. -/
def sheetOccurrences (ws : Worksheet) : List String :=
  (ws.rows.map rowOccurrences).flatten

/-- Every placeholder occurrence of the workbook, in discovery order,
duplicates kept. -/
def workbookOccurrences (wb : Workbook) : List String :=
  (wb.sheets.map sheetOccurrences).flatten

/-- Set.add on an insertion-ordered set. -/
def insertOrdered (acc : List String) (x : String) : List String :=
  if x ∈ acc then acc else acc ++ [x]

/-- The Scanner: every occurrence is added to an insertion-ordered set
of names. -/
def findExcelPlaceholders (wb : Workbook) : List String :=
  (workbookOccurrences wb).foldl insertOrdered []

/-- Reference description of an insertion-ordered set: the first
occurrence of every element, in order. -/
def firstOccurrences : List String → List String
  | [] => []
  | x :: xs => x :: firstOccurrences (xs.filter fun y => y ≠ x)
termination_by l => l.length
decreasing_by
  simp only [List.length_cons]
  exact Nat.lt_succ_of_le (List.length_filter_le _ _)

/-! ## The Download Service (src/routes/download.ts) -/

/-- Split a character list at a separator (the semantics of
String.split with a one-character separator: "a/b" gives ["a","b"],
a leading or trailing separator gives an empty component). -/
def splitChars (sep : Char) : List Char → List (List Char)
  | [] => [[]]
  | c :: rest =>
    let r := splitChars sep rest
    if c = sep then [] :: r
    else
      match r with
      | [] => [[c]]
      | h :: t => (c :: h) :: t

/-- Path split at "/". -/
def splitSlash (s : String) : List String :=
  (splitChars '/' s.data).map String.mk

/-- Last path component (path.basename without an extension argument);
the repository only applies it to paths without trailing slashes. -/
def basenameStr (p : String) : String :=
  (splitSlash p).getLastD ""

/-- Resolution of "." , ".." and empty segments, as done by path.join
and path.resolve on absolute paths (ascent never passes the root). -/
def normalizeSegs (segs : List String) : List String :=
  segs.foldl
    (fun acc seg =>
      if seg = "" || seg = "." then acc
      else if seg = ".." then acc.dropLast
      else acc ++ [seg])
    []

/-- path.join(dir, name) for an absolute dir: concatenate and normalize. -/
def pathJoin (a b : String) : String :=
  "/" ++ String.intercalate "/" (normalizeSegs (splitSlash a ++ splitSlash b))

/-- Line 49 of src/routes/download.ts:
const cleanFilename = path.basename(filename). -/
def cleanFilename (filename : String) : String :=
  basenameStr filename

/-- Whether a path lies strictly inside a directory. -/
def isWithinDir (dir p : String) : Bool :=
  List.isPrefixOf (dir ++ "/").data p.data

/-- The typed artifact directories, path.resolve(__dirname, "..",
"output-generated", t) with the module directory modelled as
/srv/routes. -/
def generatedPdfDir : String := "/srv/output-generated/pdf"

/-- The spreadsheet artifact directory. -/
def generatedExcelDir : String := "/srv/output-generated/excel"

/-- The word-processing artifact directory. -/
def generatedDocxDir : String := "/srv/output-generated/docx"

/-- Outcome of a download request. -/
inductive DlOutcome where
  | badRequest : DlOutcome
  | serverError : DlOutcome
  | notFound : DlOutcome
  | serve : String → DlOutcome
deriving DecidableEq, Repr

/-- The switch on the type parameter (lines 55-69). -/
def targetDirFor (type : String) : Option String :=
  if type = "pdf" then some generatedPdfDir
  else if type = "excel" then some generatedExcelDir
  else if type = "docx" then some generatedDocxDir
  else none

/-- The download handler, over an abstract existence test of the
filesystem.  Line 49 computes cleanFilename, and line 79 joins the raw
filename into the target directory; the served path is the joined one. -/
def downloadHandler (fsExists : String → Bool) (type filename : String) :
    DlOutcome :=
  if type = "" || filename = "" then .badRequest
  else
    match targetDirFor type with
    | none => .badRequest
    | some dir =>
      if !fsExists dir then .serverError
      else
        let filePath := pathJoin dir filename
        if !fsExists filePath then .notFound
        else .serve filePath

/-! ## The Page-Layout Conversion Adapter (convertToPdf and
convertExcelToPdf, src/app.ts 354-422)

The external converter is the environment: an invocation is described by
whether the child process exited successfully (promisify(exec) rejects on
a non-zero exit status, which the try/catch wraps into the conversion
error) and by the filesystem as observed afterwards.  mkdirSync of the
output directory is recursive and modelled as always succeeding. -/

/-- Existing files with their byte sizes. -/
def FileSys := List (String × Nat)

/-- fs.existsSync. -/
def fsHas (fs : FileSys) (p : String) : Bool :=
  (List.lookup p fs).isSome

/-- All but the last path component (path.dirname on the nested
absolute paths the repository uses). -/
def dirnameStr (p : String) : String :=
  String.intercalate "/" (splitSlash p).dropLast

/-- path.basename(p, ext): the extension is removed when it is a proper
suffix of the base name. -/
def basenameMinus (p ext : String) : String :=
  let b := basenameStr p
  if b ≠ ext && List.isSuffixOf ext.data b.data then
    String.mk (b.data.take (b.data.length - ext.data.length))
  else b

/-- The deterministically derived expected output file,
path.join(outDir, path.basename(input, ext) + ".pdf"). -/
def expectedPdfPath (outDir input ext : String) : String :=
  pathJoin outDir (basenameMinus input ext ++ ".pdf")

/-- One invocation of the external converter, as the adapter observes
it. -/
structure ConvEnv where
  exitOk : Bool
  postFS : FileSys

/-- Outcome of the adapter: the path whose existence satisfied the final
check, or the error message family thrown. -/
inductive ConvResult where
  | ok : String → ConvResult
  | err : String → ConvResult
deriving DecidableEq, Repr

/-- convertToPdf (lines 354-377): input must exist, the soffice command
must resolve, and the expected .pdf derived from the .docx input must
exist afterwards.  The size of the produced file is never read. -/
def convertToPdf (pre : FileSys) (env : ConvEnv) (inputPath outputPath : String) :
    ConvResult :=
  let outDir := dirnameStr outputPath
  if !fsHas pre inputPath then .err "Input file not found"
  else if !env.exitOk then .err "command failed"
  else
    let expected := expectedPdfPath outDir inputPath ".docx"
    if !fsHas env.postFS expected then .err "PDF file was not created after conversion"
    else .ok expected

/-- convertExcelToPdf (lines 380-422): the same shape for .xlsx input,
with a one-second settling wait before the existence check (postFS is
the filesystem after that wait). -/
def convertExcelToPdf (pre : FileSys) (env : ConvEnv) (inputPath outputPath : String) :
    ConvResult :=
  let outDir := dirnameStr outputPath
  if !fsHas pre inputPath then .err "Input file not found"
  else if !env.exitOk then .err "command failed"
  else
    let expected := expectedPdfPath outDir inputPath ".xlsx"
    if !fsHas env.postFS expected then .err "PDF file was not created at expected path"
    else .ok expected

/-! ## Word-processing image normalization
(the docx branch of app.post("/generate"), src/app.ts 286-309) -/

/-- Base64 value of one alphabet character. -/
def b64Val (c : Char) : Option Nat :=
  let code := c.toNat
  if 65 ≤ code && code ≤ 90 then some (code - 65)
  else if 97 ≤ code && code ≤ 122 then some (code - 71)
  else if 48 ≤ code && code ≤ 57 then some (code + 4)
  else if c = '+' then some 62
  else if c = '/' then some 63
  else none

/-- Bit accumulation over the 6-bit values: emit a byte whenever eight
bits are available. -/
def b64Bytes : List Nat → Nat → Nat → List Nat
  | [], _, _ => []
  | v :: vs, buf, bits =>
    let buf' := buf * 64 + v
    let bits' := bits + 6
    if 8 ≤ bits' then
      buf' / 2 ^ (bits' - 8) :: b64Bytes vs (buf' % 2 ^ (bits' - 8)) (bits' - 8)
    else b64Bytes vs buf' bits'

/-- Buffer.from(s, "base64"): characters outside the alphabet (such as
the padding) are skipped, the rest decode as a bit stream, trailing bits
short of a byte are dropped. -/
def base64Decode (s : String) : List Nat :=
  b64Bytes (s.data.filterMap b64Val) 0 0

/-- An image descriptor as submitted by the caller: base64 bytes plus
the optional presentation fields. -/
structure ImageIn where
  source : String
  altText : Option String
  transparencyPercent : Option Int
  width : Option Int
  height : Option Int
deriving DecidableEq, Repr

/-- The normalized descriptor handed to the templating library. -/
structure ImageOut where
  source : List Nat
  format : String
  width : Int
  height : Int
  altText : String
  transparencyPercent : Int
deriving DecidableEq, Repr

/-- JS a || b on an optional string: b when a is undefined or empty. -/
def jsOrStr (a : Option String) (b : String) : String :=
  match a with
  | some s => if s = "" then b else s
  | none => b

/-- JS a || b on an optional number: b when a is undefined or zero. -/
def jsOrInt (a : Option Int) (b : Int) : Int :=
  match a with
  | some n => if n = 0 then b else n
  | none => b

/-- Lines 290-300: the replacement object built for an image entry.
width and height are the literals 150 and 100; altText and
transparencyPercent go through ||. -/
def normalizeImage (key : String) (img : ImageIn) : ImageOut :=
  { source := base64Decode img.source
    format := "image/png"
    width := 150
    height := 100
    altText := jsOrStr img.altText key
    transparencyPercent := jsOrInt img.transparencyPercent 0 }

/-- A value of the docx-path FormData: an image descriptor (an object
whose _type is "image"), a normalized descriptor, or any other value. -/
inductive DocxFormValue where
  | image : ImageIn → DocxFormValue
  | imageOut : ImageOut → DocxFormValue
  | scalar : JSVal → DocxFormValue
deriving DecidableEq, Repr

/-- One step of the Object.entries(formData).forEach loop (lines
286-309): image entries are replaced in place, everything else is left
alone. -/
def normalizeEntry (e : String × DocxFormValue) : String × DocxFormValue :=
  match e with
  | (k, .image i) => (k, .imageOut (normalizeImage k i))
  | other => other

/-- The whole pre-processing pass over the docx FormData. -/
def normalizeDocxFormData (fd : List (String × DocxFormValue)) :
    List (String × DocxFormValue) :=
  fd.map normalizeEntry

/-! ## Artifact cleanup (cleanupGeneratedFiles, src/app.ts 425-448) -/

/-- A file of a generated-artifact directory: name and last-modified
time in milliseconds. -/
structure GenFile where
  name : String
  mtime : Int
deriving DecidableEq, Repr

/-- The per-directory sweep: files whose age strictly exceeds maxAge are
unlinked; an unlink failure is caught, logged and the loop continues, so
a failing file simply remains.  Every other file is untouched. -/
def sweepDir (now maxAge : Int) (unlinkFails : String → Bool) (files : List GenFile) :
    List GenFile :=
  files.filter fun f =>
    if now - f.mtime > maxAge then unlinkFails f.name else true

/-- cleanupGeneratedFiles: hours are converted to milliseconds and every
typed directory is swept. -/
def cleanupGeneratedFiles (now : Int) (maxAgeHours : Int)
    (unlinkFails : String → Bool) (dirs : List (List GenFile)) :
    List (List GenFile) :=
  let maxAge := maxAgeHours * 60 * 60 * 1000
  dirs.map (sweepDir now maxAge unlinkFails)

/-! ## Concrete example documents and requests -/

/-- A representative plain-data cell style. -/
def exampleStyle : Style :=
  ⟨"Calibri", "solid", "thin", "General", "left"⟩

/-- A one-cell template whose cell is the single token of a date-valued
placeholder. -/
def exampleDateWb : Workbook :=
  ⟨[⟨[⟨[⟨.str "{{d}}", exampleStyle⟩], 15, false, 0⟩], [], "p", "ps"⟩], "wp", "v"⟩

/-- The submitted form data for the date scenario. -/
def exampleDateFd : FormData :=
  [("d", JSVal.str "2024-01-01")]

/-- A template carrying tokens a, b, a across different cells. -/
def exampleScanWb : Workbook :=
  ⟨[⟨[⟨[⟨.str "x {{a}} y", exampleStyle⟩, ⟨.str "{{b}}", exampleStyle⟩], 15, false, 0⟩,
      ⟨[⟨.str "{{a}}!", exampleStyle⟩], 15, false, 0⟩], [], "p", "ps"⟩], "wp", "v"⟩

/-- An already-filled document: no cell offers a token. -/
def exampleFilledWb : Workbook :=
  ⟨[⟨[⟨[⟨.str "Acme", exampleStyle⟩, ⟨.num ⟨5, 0⟩, exampleStyle⟩], 15, false, 0⟩],
     [⟨some 12, "colA"⟩], "p", "ps"⟩], "wp", "v"⟩

/-- A template whose only token sits in the cached result of a formula
cell. -/
def exampleFormulaWb : Workbook :=
  ⟨[⟨[⟨[⟨.formula "CONCATENATE(A1)" (some "{{a}} total"), exampleStyle⟩], 15, false, 0⟩],
     [], "p", "ps"⟩], "wp", "v"⟩

/-- The existence test of the download counterexample scenario: the
three artifact directories exist, and so does /srv/etc/passwd. -/
def exampleDlFS : String → Bool := fun p =>
  p = generatedPdfDir || p = generatedExcelDir || p = generatedDocxDir ||
    p = "/srv/etc/passwd"

/-! ## Helper lemmas -/

/-- The JSON round-trip deep copy of a plain-data style is the style. -/
theorem deepCopyStyle_eq (s : Style) : deepCopyStyle s = s := rfl

/-- The column spread copy is the column. -/
theorem copyColumn_eq (c : ColInfo) : copyColumn c = c := rfl

/-- Mapping the column copy over a list changes nothing. -/
theorem map_copyColumn (l : List ColInfo) : l.map copyColumn = l := by
  induction l with
  | nil => rfl
  | cons a t ih => simp [copyColumn_eq, ih]

/-- Restoring a column width from itself changes nothing. -/
theorem restoreWidth_self (c : ColInfo) : restoreWidth c c = c := by
  obtain ⟨w, r⟩ := c
  cases w with
  | none => rfl
  | some v =>
    simp only [restoreWidth]
    split <;> rfl

/-- Zipping a list with itself under a pointwise-identity function is
the identity. -/
theorem zipWith_self_eq {α : Type _} (f : α → α → α) (l : List α)
    (h : ∀ x ∈ l, f x x = x) : List.zipWith f l l = l := by
  induction l with
  | nil => rfl
  | cons a t ih =>
    simp only [List.zipWith_cons_cons]
    rw [h a (List.mem_cons_self a t), ih fun x hx => h x (List.mem_cons_of_mem a hx)]

/-- Indexing into a self-zip. -/
theorem zipWith_self_getElem? {α β : Type _} (f : α → α → β) (l : List α) (i : Nat) :
    (List.zipWith f l l)[i]? = (l[i]?).map fun a => f a a := by
  induction l generalizing i with
  | nil => simp
  | cons a t ih =>
    cases i with
    | zero => simp
    | succ n => simp [ih]

/-- Cell-level view of the whole renderer: the cell at any position of
the output is the processed input cell at that position (the template
copy being the same parse of the same file). -/
theorem processExcelTemplate_cellAt (fd : FormData) (wb : Workbook) (i j k : Nat) :
    (processExcelTemplate fd wb).cellAt i j k
      = (wb.cellAt i j k).map fun c => processCell fd c c := by
  unfold processExcelTemplate processWorkbook Workbook.cellAt
  simp only [zipWith_self_getElem?]
  cases hws : wb.sheets[i]? with
  | none => simp
  | some ws =>
    simp only [Option.map_some', Option.some_bind, processSheet, zipWith_self_getElem?]
    cases hr : ws.rows[j]? with
    | none => simp
    | some r =>
      simp only [Option.map_some', Option.some_bind, processRow, zipWith_self_getElem?]

/-- Processing a cell against itself leaves a non-string value
untouched entirely. -/
theorem processCell_nonstr (fd : FormData) (c : Cell)
    (h : c.value.isStr = false) : processCell fd c c = c := by
  obtain ⟨v, st⟩ := c
  cases v <;> simp_all [processCell, CellValue.isStr, deepCopyStyle_eq]

/-- Processing a cell against itself is the identity when its extracted
text offers no token. -/
theorem processCell_self_id (fd : FormData) (c : Cell)
    (h : hasPlaceholder (scanText c.value) = false) : processCell fd c c = c := by
  obtain ⟨v, st⟩ := c
  cases v with
  | str s =>
    simp only [scanText] at h
    simp [processCell, h, deepCopyStyle_eq]
  | _ => simp_all [processCell, CellValue.isStr, deepCopyStyle_eq]

/-- C5 (confirmed).  After spreadsheet rendering, the style of every
cell of the output, substituted or not, equals the style of the
corresponding cell of the template: each visited cell has its style
unconditionally overwritten with a deep copy of the pristine reference
style, and the reference is a parse of the same file. -/
theorem render_preserves_styles (fd : FormData) (wb : Workbook) (i j k : Nat) :
    ((processExcelTemplate fd wb).cellAt i j k).map Cell.style
      = (wb.cellAt i j k).map Cell.style := by
  rw [processExcelTemplate_cellAt]
  cases wb.cellAt i j k with
  | none => rfl
  | some c => simp [processCell, deepCopyStyle_eq]

/-- C10 (confirmed).  Spreadsheet rendering substitutes only cells whose
value is a plain string: a cell holding a formula, rich text, a number
or a date passes through rendering unchanged, even when the Scanner
discovered a placeholder in its extracted text. -/
theorem render_skips_nonstring_cells (fd : FormData) (wb : Workbook)
    (i j k : Nat) (c : Cell) (h1 : wb.cellAt i j k = some c)
    (h2 : c.value.isStr = false) :
    (processExcelTemplate fd wb).cellAt i j k = some c := by
  rw [processExcelTemplate_cellAt, h1, Option.map_some', processCell_nonstr fd c h2]

/-- Witness for C10: the Scanner discovers the placeholder a inside the
cached result of the formula cell, the caller supplies a value for a,
and the rendered cell is nevertheless the unchanged formula cell. -/
theorem render_skips_nonstring_cells_witness :
    findExcelPlaceholders exampleFormulaWb = ["a"]
      ∧ (processExcelTemplate [("a", JSVal.str "filled")] exampleFormulaWb).cellAt 0 0 0
        = some ⟨.formula "CONCATENATE(A1)" (some "{{a}} total"), exampleStyle⟩ :=
  ⟨by decide,
   render_skips_nonstring_cells [("a", JSVal.str "filled")] exampleFormulaWb 0 0 0
     ⟨.formula "CONCATENATE(A1)" (some "{{a}} total"), exampleStyle⟩
     (by decide) (by decide)⟩

/-- Processing a row against itself is the identity when none of its
cells offers a token. -/
theorem processRow_self_id (fd : FormData) (r : Row)
    (h : ∀ c ∈ r.cells, hasPlaceholder (scanText c.value) = false) :
    processRow fd r r = r := by
  obtain ⟨cells, ht, hd, ol⟩ := r
  simp only [processRow, Row.mk.injEq, and_true]
  exact zipWith_self_eq _ _ fun c hc => processCell_self_id fd c (h c hc)

/-- Processing a sheet against itself is the identity when none of its
cells offers a token. -/
theorem processSheet_self_id (fd : FormData) (ws : Worksheet)
    (h : ∀ r ∈ ws.rows, ∀ c ∈ r.cells, hasPlaceholder (scanText c.value) = false) :
    processSheet fd ws ws = ws := by
  obtain ⟨rows, cols, p, ps⟩ := ws
  simp only [processSheet, Worksheet.mk.injEq, and_true]
  constructor
  · exact zipWith_self_eq _ _ fun r hr => processRow_self_id fd r (h r hr)
  · rw [map_copyColumn]
    exact zipWith_self_eq _ _ fun c _ => restoreWidth_self c

/-- C8 (confirmed).  Spreadsheet substitution is content-idempotent:
re-running the renderer over an already-filled document, in which no
cell offers a further token, changes nothing — neither cell values nor
styles nor any copied structural property. -/
theorem render_idempotent (fd : FormData) (wb : Workbook)
    (h : wb.hasToken = false) : processExcelTemplate fd wb = wb := by
  obtain ⟨sheets, p, v⟩ := wb
  simp only [Workbook.hasToken, List.any_eq_false, Bool.not_eq_true] at h
  simp only [processExcelTemplate, processWorkbook, Workbook.mk.injEq, and_true]
  refine zipWith_self_eq _ _ fun ws hws => processSheet_self_id fd ws ?_
  intro r hr c hc
  have := h ws hws
  simp only [List.any_eq_false, Bool.not_eq_true] at this
  have := this r hr
  simp only [List.any_eq_false, Bool.not_eq_true] at this
  exact this c hc

/-- Witness for C8: a filled two-cell document with no tokens renders
to itself. -/
theorem render_idempotent_witness :
    exampleFilledWb.hasToken = false
      ∧ processExcelTemplate [("name", JSVal.str "Acme")] exampleFilledWb
        = exampleFilledWb :=
  ⟨by decide, render_idempotent [("name", JSVal.str "Acme")] exampleFilledWb (by decide)⟩

/-- Membership in the insertion-ordered set add. -/
theorem mem_insertOrdered (acc : List String) (a x : String) :
    x ∈ insertOrdered acc a ↔ x ∈ acc ∨ x = a := by
  unfold insertOrdered
  split
  · rename_i h
    constructor
    · exact Or.inl
    · rintro (hx | rfl) <;> [exact hx; exact h]
  · simp

/-- The insertion-ordered set add keeps the set duplicate-free. -/
theorem insertOrdered_nodup (acc : List String) (a : String)
    (h : acc.Nodup) : (insertOrdered acc a).Nodup := by
  unfold insertOrdered
  split
  · exact h
  · rename_i ha
    simp [List.nodup_append, h, ha]

/-- Folding the set add keeps the set duplicate-free. -/
theorem foldl_insertOrdered_nodup (l : List String) :
    ∀ acc : List String, acc.Nodup → (l.foldl insertOrdered acc).Nodup := by
  induction l with
  | nil => intro acc h; exact h
  | cons a xs ih =>
    intro acc h
    exact ih (insertOrdered acc a) (insertOrdered_nodup acc a h)

/-- Membership after folding the set add. -/
theorem mem_foldl_insertOrdered (l : List String) :
    ∀ (acc : List String) (x : String),
      x ∈ l.foldl insertOrdered acc ↔ x ∈ acc ∨ x ∈ l := by
  induction l with
  | nil => intro acc x; simp
  | cons a xs ih =>
    intro acc x
    simp only [List.foldl_cons]
    rw [ih, mem_insertOrdered]
    simp [or_assoc]

/-- The fold of the set add produces exactly the first occurrences of
the occurrence list, in discovery order. -/
theorem foldl_insertOrdered_eq (l : List String) :
    ∀ acc : List String,
      l.foldl insertOrdered acc
        = acc ++ firstOccurrences (l.filter fun x => decide (x ∉ acc)) := by
  induction l with
  | nil => intro acc; simp [firstOccurrences]
  | cons a xs ih =>
    intro acc
    simp only [List.foldl_cons]
    by_cases hx : a ∈ acc
    · rw [show insertOrdered acc a = acc from by simp [insertOrdered, hx]]
      rw [ih acc]
      congr 2
      simp [List.filter_cons, hx]
    · rw [show insertOrdered acc a = acc ++ [a] from by simp [insertOrdered, hx]]
      rw [ih (acc ++ [a])]
      have hfil : (a :: xs).filter (fun x => decide (x ∉ acc))
          = a :: xs.filter fun x => decide (x ∉ acc) := by
        simp [List.filter_cons, hx]
      rw [hfil, firstOccurrences, List.filter_filter, List.append_assoc]
      simp only [List.singleton_append]
      refine congrArg (acc ++ ·) (congrArg (a :: ·) (congrArg firstOccurrences ?_))
      apply List.filter_congr
      intro y _
      simp only [List.mem_append, List.mem_singleton, decide_not]
      cases hya : decide (y = a) <;> cases hyacc : decide (y ∈ acc) <;>
        simp_all

/-- The Scanner result, described as first occurrences. -/
theorem findExcelPlaceholders_eq (wb : Workbook) :
    findExcelPlaceholders wb = firstOccurrences (workbookOccurrences wb) := by
  unfold findExcelPlaceholders
  rw [foldl_insertOrdered_eq]
  simp

/-- C7 (confirmed).  The Scanner returns the distinct placeholder
names: duplicates collapse, membership agrees with the occurrence scan,
the order is the order of first appearance, and the scan of a document
with tokens a, b, a across different cells is exactly the set {a, b}. -/
theorem scanner_distinct_first_order (wb : Workbook) :
    (findExcelPlaceholders wb).Nodup
      ∧ (∀ x, x ∈ findExcelPlaceholders wb ↔ x ∈ workbookOccurrences wb)
      ∧ findExcelPlaceholders wb = firstOccurrences (workbookOccurrences wb)
      ∧ findExcelPlaceholders exampleScanWb = ["a", "b"] := by
  refine ⟨foldl_insertOrdered_nodup _ _ List.nodup_nil, ?_, findExcelPlaceholders_eq wb, by decide⟩
  intro x
  rw [show findExcelPlaceholders wb = (workbookOccurrences wb).foldl insertOrdered [] from rfl,
    mem_foldl_insertOrdered]
  simp

/-- Anatomy of a successful match: the subject starts with the two
opening braces, the nonempty captured name, and the two closing braces,
followed by the rest. -/
theorem matchTok_eq_some {cs : List Char} {n : String} {rest2 : List Char}
    (h : matchTok cs = some (n, rest2)) :
    cs = '{' :: '{' :: (n.data ++ '}' :: '}' :: rest2) ∧ n.data ≠ [] := by
  unfold matchTok at h
  split at h
  · rename_i rest
    split at h
    · rename_i rest3 heq
      dsimp only at h
      split at h
      · exact absurd h (by simp)
      · rename_i hrun
        simp only [Option.some.injEq, Prod.mk.injEq] at h
        obtain ⟨hn, hr⟩ := h
        subst hn
        subst hr
        refine ⟨?_, by simpa [List.isEmpty_iff] using hrun⟩
        have hsplit : rest
            = List.takeWhile (fun c => decide (c ≠ '}')) rest ++ '}' :: '}' :: rest3 := by
          rw [← heq]
          exact (List.takeWhile_append_dropWhile _ rest).symm
        exact congrArg (fun l => '{' :: '{' :: l) hsplit
    · exact absurd h (by simp)
  · exact absurd h (by simp)

/-- The scan of the subject, mapped back to its source text, is the
subject: the tokenizer loses nothing. -/
theorem tokenizeAux_flatten :
    ∀ (fuel : Nat) (cs : List Char), cs.length ≤ fuel →
      ((tokenizeAux fuel cs).map segChars).flatten = cs := by
  intro fuel
  induction fuel with
  | zero =>
    intro cs h
    have hcs : cs = [] := List.eq_nil_of_length_eq_zero (Nat.le_zero.mp h)
    subst hcs
    rfl
  | succ f ih =>
    intro cs h
    cases cs with
    | nil => rfl
    | cons c rest =>
      simp only [tokenizeAux]
      cases hm : matchTok (c :: rest) with
      | none =>
        simp only [List.map_cons, List.flatten_cons, segChars, List.singleton_append]
        rw [ih rest (by simpa using Nat.le_of_succ_le_succ h)]
      | some p =>
        obtain ⟨n, rest2⟩ := p
        obtain ⟨hcs, hne⟩ := matchTok_eq_some hm
        simp only [List.map_cons, List.flatten_cons, segChars]
        have hlen : rest2.length ≤ f := by
          have hlength : (c :: rest).length
              = n.data.length + rest2.length + 4 := by
            rw [hcs]
            simp only [List.length_cons, List.length_append]
            omega
          have hpos : 1 ≤ n.data.length := List.length_pos.mpr hne
          simp only [List.length_cons] at hlength h
          omega
        rw [ih rest2 hlen, hcs]
        simp

/-- Tokenizer faithfulness at the true fuel. -/
theorem tokenize_flatten (cs : List Char) :
    ((tokenize cs).map segChars).flatten = cs :=
  tokenizeAux_flatten cs.length cs (Nat.le_refl _)

/-- The characters of a concatenation of strings. -/
theorem concatStrings_data (l : List String) :
    (concatStrings l).data = (l.map String.data).flatten := by
  induction l with
  | nil => rfl
  | cons s rest ih => simp [concatStrings, ih]

/-- A segment whose token name is absent from FormData renders to its
own source text. -/
theorem renderSeg_eq_segChars (fd : FormData) (sg : Seg)
    (h : ∀ n, sg = Seg.tok n → List.lookup n fd = none) :
    renderSeg fd sg = String.mk (segChars sg) := by
  cases sg with
  | lit c => rfl
  | tok n =>
    have hl := h n rfl
    apply String.ext
    simp [renderSeg, substCallback, hl, substOutToString, segChars, String.data_append]

/-- C6 (confirmed).  A placeholder name absent from FormData is
re-emitted as its literal token text, and a cell all of whose token
names are absent renders to itself (round-trip identity); partial
substitution is not an error. -/
theorem absent_placeholders_kept (fd : FormData) (s : String)
    (h : ∀ n ∈ tokenNames s, List.lookup n fd = none) :
    (∀ n ∈ tokenNames s,
        substOutToString (substCallback fd n) = "\x7b\x7b" ++ n ++ "\x7d\x7d")
      ∧ jsReplaceTokens fd s = s := by
  constructor
  · intro n hn
    simp [substCallback, h n hn, substOutToString]
  · unfold jsReplaceTokens
    apply String.ext
    rw [concatStrings_data]
    have hmap : (tokenize s.data).map (renderSeg fd)
        = (tokenize s.data).map fun sg => String.mk (segChars sg) := by
      apply List.map_congr_left
      intro sg hsg
      apply renderSeg_eq_segChars
      intro n hn
      apply h
      subst hn
      exact List.mem_filterMap.mpr ⟨Seg.tok n, hsg, rfl⟩
    rw [hmap, List.map_map]
    have hcomp : (String.data ∘ fun sg => String.mk (segChars sg)) = segChars := rfl
    rw [hcomp]
    exact tokenize_flatten s.data

/-- Witness for C6: with only b bound, a cell holding tokens a and c
renders to itself. -/
theorem absent_placeholders_kept_witness :
    jsReplaceTokens [("b", JSVal.str "1")] "{{a}} and {{c}}" = "{{a}} and {{c}}" :=
  (absent_placeholders_kept [("b", JSVal.str "1")] "{{a}} and {{c}}" (by decide)).2

/-- C1 (code bug).  The handler computes the stripped base name
(cleanFilename, line 49) but composes the lookup path from the raw
filename (line 79): for the request (pdf, ../../etc/passwd) the served
path is /srv/etc/passwd, which lies outside the pdf directory and is
not the in-directory lookup of the literal base name passwd that the
stripping defense would produce. -/
theorem download_traversal_defense_unused :
    downloadHandler exampleDlFS "pdf" "../../etc/passwd"
        = .serve "/srv/etc/passwd"
      ∧ cleanFilename "../../etc/passwd" = "passwd"
      ∧ isWithinDir generatedPdfDir "/srv/etc/passwd" = false
      ∧ pathJoin generatedPdfDir (cleanFilename "../../etc/passwd")
        = "/srv/output-generated/pdf/passwd"
      ∧ isWithinDir generatedPdfDir "/srv/output-generated/pdf/passwd" = true := by
  refine ⟨?_, by decide, by decide, by decide, by decide⟩
  decide

/-- C2 (code bug).  The substitution callback returns new Date(value)
for an ISO-dated string, but String.replace coerces the callback result
to a string, so the cell receives the rendered date text, not a date
value: submitting d = 2024-01-01 against the one-token cell leaves a
plain string cell holding the text of the date. -/
theorem excel_date_substitution_yields_text :
    processExcelTemplate exampleDateFd exampleDateWb
        = ⟨[⟨[⟨[⟨.str "Mon Jan 01 2024 00:00:00 GMT+0000 (Coordinated Universal Time)",
              exampleStyle⟩], 15, false, 0⟩], [], "p", "ps"⟩], "wp", "v"⟩
      ∧ ((processExcelTemplate exampleDateFd exampleDateWb).cellAt 0 0 0).map
          (fun c => c.value.isDate) = some false
      ∧ ((processExcelTemplate exampleDateFd exampleDateWb).cellAt 0 0 0).map
          (fun c => c.value.isStr) = some true := by
  refine ⟨?_, by decide, by decide⟩
  decide

/-- C3 (counterexample).  The adapter succeeds on an existing but empty
expected output file (the claimed non-zero-size requirement is not
checked), and it fails when the subprocess exits non-zero even though a
non-empty expected output file exists (success is not independent of
the exit status). -/
theorem convert_allornothing_refuted :
    convertToPdf ([("/srv/output-generated/docx/generated-7.docx", 10)] : FileSys)
        ⟨true, ([("/srv/output-generated/pdf/generated-7.pdf", 0)] : FileSys)⟩
        "/srv/output-generated/docx/generated-7.docx"
        "/srv/output-generated/pdf/generated-7.pdf"
        = .ok "/srv/output-generated/pdf/generated-7.pdf"
      ∧ List.lookup "/srv/output-generated/pdf/generated-7.pdf"
          ([("/srv/output-generated/pdf/generated-7.pdf", 0)] : FileSys) = some 0
      ∧ convertToPdf ([("/srv/output-generated/docx/generated-7.docx", 10)] : FileSys)
          ⟨false, ([("/srv/output-generated/pdf/generated-7.pdf", 4096)] : FileSys)⟩
          "/srv/output-generated/docx/generated-7.docx"
          "/srv/output-generated/pdf/generated-7.pdf"
        = .err "command failed" := by
  refine ⟨?_, by decide, ?_⟩ <;> decide

/-- C3 (amended).  Conversion succeeds exactly when the input exists,
the subprocess resolves (exit status zero), and the deterministically
derived expected output file exists afterwards; the size of the output
is never inspected, and a non-zero exit status forces failure. -/
theorem convert_success_characterization (pre : FileSys) (env : ConvEnv)
    (inp outp : String) :
    (convertToPdf pre env inp outp
        = .ok (expectedPdfPath (dirnameStr outp) inp ".docx")
      ↔ fsHas pre inp = true ∧ env.exitOk = true
          ∧ fsHas env.postFS (expectedPdfPath (dirnameStr outp) inp ".docx") = true)
      ∧ (convertExcelToPdf pre env inp outp
        = .ok (expectedPdfPath (dirnameStr outp) inp ".xlsx")
      ↔ fsHas pre inp = true ∧ env.exitOk = true
          ∧ fsHas env.postFS (expectedPdfPath (dirnameStr outp) inp ".xlsx") = true) := by
  constructor
  · by_cases h1 : fsHas pre inp <;> by_cases h2 : env.exitOk <;>
      by_cases h3 : fsHas env.postFS (expectedPdfPath (dirnameStr outp) inp ".docx") <;>
      simp [convertToPdf, h1, h2, h3]
  · by_cases h1 : fsHas pre inp <;> by_cases h2 : env.exitOk <;>
      by_cases h3 : fsHas env.postFS (expectedPdfPath (dirnameStr outp) inp ".xlsx") <;>
      simp [convertExcelToPdf, h1, h2, h3]

/-- C4 (counterexample).  A caller-supplied width of 300 and height of
50 are discarded: the normalized image always carries 150 by 100. -/
theorem image_dimensions_overridden :
    (normalizeImage "logo" ⟨"aGk=", none, some 30, some 300, some 50⟩).width = 150
      ∧ (normalizeImage "logo" ⟨"aGk=", none, some 30, some 300, some 50⟩).height = 100
      ∧ (⟨"aGk=", none, some 30, some 300, some 50⟩ : ImageIn).width = some 300
      ∧ (⟨"aGk=", none, some 30, some 300, some 50⟩ : ImageIn).height = some 50
      ∧ (150 : Int) ≠ 300 ∧ (100 : Int) ≠ 50 := by
  refine ⟨by decide, by decide, by decide, by decide, by decide, by decide⟩

/-- C4 (amended).  Image normalization decodes the text-encoded bytes
to raw binary, tags the result as PNG, always sets width 150 and height
100 regardless of caller-supplied values, keeps a caller-supplied
non-zero transparency and defaults it to 0 when omitted, defaults alt
text to the placeholder name when omitted or empty, and passes
non-image values through unmodified. -/
theorem normalizeImage_spec (key : String) (img : ImageIn) :
    (normalizeImage key img).source = base64Decode img.source
      ∧ (normalizeImage key img).format = "image/png"
      ∧ (normalizeImage key img).width = 150
      ∧ (normalizeImage key img).height = 100
      ∧ (img.altText = none → (normalizeImage key img).altText = key)
      ∧ (∀ t, img.altText = some t → t ≠ "" → (normalizeImage key img).altText = t)
      ∧ (img.transparencyPercent = none
          → (normalizeImage key img).transparencyPercent = 0)
      ∧ (∀ p, img.transparencyPercent = some p → p ≠ 0
          → (normalizeImage key img).transparencyPercent = p)
      ∧ (∀ (k : String) (v : DocxFormValue),
          (∀ i : ImageIn, v ≠ .image i) → normalizeEntry (k, v) = (k, v)) := by
  refine ⟨rfl, rfl, rfl, rfl, ?_, ?_, ?_, ?_, ?_⟩
  · intro h
    simp [normalizeImage, jsOrStr, h]
  · intro t ht hne
    simp [normalizeImage, jsOrStr, ht, hne]
  · intro h
    simp [normalizeImage, jsOrInt, h]
  · intro p hp hne
    simp [normalizeImage, jsOrInt, hp, hne]
  · intro k v hv
    cases v with
    | image i => exact absurd rfl (hv i)
    | imageOut o => rfl
    | scalar s => rfl

/-- Witness for C4 (amended): a caller-supplied alt text and non-zero
transparency are kept, omitted ones default, and a scalar entry passes
through. -/
theorem normalizeImage_spec_witness :
    (normalizeImage "sig" ⟨"aGk=", some "pen", some 25, none, none⟩).altText = "pen"
      ∧ (normalizeImage "sig" ⟨"aGk=", some "pen", some 25, none, none⟩).transparencyPercent = 25
      ∧ (normalizeImage "sig" ⟨"aGk=", none, none, none, none⟩).altText = "sig"
      ∧ (normalizeImage "sig" ⟨"aGk=", none, none, none, none⟩).transparencyPercent = 0
      ∧ normalizeEntry ("n", .scalar (JSVal.str "x")) = ("n", .scalar (JSVal.str "x")) :=
  ⟨(normalizeImage_spec "sig" ⟨"aGk=", some "pen", some 25, none, none⟩).2.2.2.2.2.1
      "pen" rfl (by decide),
   (normalizeImage_spec "sig" ⟨"aGk=", some "pen", some 25, none, none⟩).2.2.2.2.2.2.2.1
      25 rfl (by decide),
   (normalizeImage_spec "sig" ⟨"aGk=", none, none, none, none⟩).2.2.2.2.1 rfl,
   (normalizeImage_spec "sig" ⟨"aGk=", none, none, none, none⟩).2.2.2.2.2.2.1 rfl,
   (normalizeImage_spec "x" ⟨"", none, none, none, none⟩).2.2.2.2.2.2.2.2
      "n" (.scalar (JSVal.str "x")) (fun i h => by cases h)⟩

/-- C9 (counterexample).  With max age 0, a file whose last-modified
time equals the sweep instant is an existing artifact that the sweep
does not remove: the age test is strict. -/
theorem cleanup_maxage_zero_refuted :
    cleanupGeneratedFiles 1000 0 (fun _ => false)
        [[⟨"generated-1000.pdf", 1000⟩]]
      = [[⟨"generated-1000.pdf", 1000⟩]] := by
  decide

/-- C9 (amended).  A sweep deletes, per directory, exactly the files
whose age strictly exceeds the configured maximum (hours converted to
milliseconds) and whose unlink succeeds; an unlink failure leaves that
file and does not abort the rest of the sweep; with max age 0 exactly
the files modified strictly before the sweep instant go; with a maximum
age at least every file's age, nothing is removed. -/
theorem cleanup_characterization (now maxAgeHours : Int)
    (unlinkFails : String → Bool) (dirs : List (List GenFile)) :
    (cleanupGeneratedFiles now maxAgeHours unlinkFails dirs
        = dirs.map (sweepDir now (maxAgeHours * 60 * 60 * 1000) unlinkFails))
      ∧ (∀ d ∈ dirs, ∀ f : GenFile,
          f ∈ sweepDir now (maxAgeHours * 60 * 60 * 1000) unlinkFails d
            ↔ f ∈ d ∧ (now - f.mtime ≤ maxAgeHours * 60 * 60 * 1000
                        ∨ unlinkFails f.name = true))
      ∧ (∀ d : List GenFile,
          sweepDir now 0 (fun _ => false) d
            = d.filter fun f => decide (now ≤ f.mtime))
      ∧ ((∀ d ∈ dirs, ∀ f ∈ d, now - f.mtime ≤ maxAgeHours * 60 * 60 * 1000)
          → cleanupGeneratedFiles now maxAgeHours unlinkFails dirs = dirs) := by
  refine ⟨rfl, ?_, ?_, ?_⟩
  · intro d _ f
    unfold sweepDir
    rw [List.mem_filter]
    constructor
    · rintro ⟨hf, hp⟩
      refine ⟨hf, ?_⟩
      by_cases hold : now - f.mtime > maxAgeHours * 60 * 60 * 1000
      · right
        simpa [hold] using hp
      · left
        omega
    · rintro ⟨hf, hp⟩
      refine ⟨hf, ?_⟩
      by_cases hold : now - f.mtime > maxAgeHours * 60 * 60 * 1000
      · rcases hp with hp | hp
        · omega
        · simpa [hold] using hp
      · simp [hold]
  · intro d
    unfold sweepDir
    apply List.filter_congr
    intro f _
    by_cases hold : now - f.mtime > 0
    · simp [hold]
      omega
    · simp [hold]
      omega
  · intro h
    show dirs.map (sweepDir now (maxAgeHours * 60 * 60 * 1000) unlinkFails) = dirs
    conv_rhs => rw [← List.map_id dirs]
    apply List.map_congr_left
    intro d hd
    show sweepDir now (maxAgeHours * 60 * 60 * 1000) unlinkFails d = d
    refine List.filter_eq_self.mpr ?_
    intro f hf
    have hle := h d hd f hf
    simp [show ¬ now - f.mtime > maxAgeHours * 60 * 60 * 1000 from by omega]

/-- Witness for C9 (amended): a huge maximum age preserves the single
artifact, and under a two-hour maximum age a 500 ms old file is kept by
the per-directory sweep. -/
theorem cleanup_characterization_witness :
    cleanupGeneratedFiles 1000 9999999 (fun _ => false)
        [[⟨"generated-1.pdf", 500⟩]] = [[⟨"generated-1.pdf", 500⟩]]
      ∧ (⟨"generated-1.pdf", 500⟩ : GenFile)
          ∈ sweepDir 1000 (2 * 60 * 60 * 1000) (fun _ => false)
              [⟨"generated-1.pdf", 500⟩] :=
  ⟨(cleanup_characterization 1000 9999999 (fun _ => false)
      [[⟨"generated-1.pdf", 500⟩]]).2.2.2 (by decide),
   ((cleanup_characterization 1000 2 (fun _ => false)
      [[⟨"generated-1.pdf", 500⟩]]).2.1
      [⟨"generated-1.pdf", 500⟩] (by decide) ⟨"generated-1.pdf", 500⟩).mpr
      ⟨by decide, Or.inl (by decide)⟩⟩

end Templates
